import Mathlib

/-!
Shallow embedding of `client/src/featureform/enums.py`: the scalar-type,
computation-mode and file-format enumerations of the featureform client,
with their classification helpers, and proofs about their behaviour.

Python strings are modelled as `String`, file paths under POSIX path
semantics (`os.path.basename` splits on the slash, `fnmatch` is
case-sensitive).  Python functions that can raise are modelled with
`Except`; a Python function that can fall through without returning is
modelled with `Option`.
-/

/- ---------------------------------------------------------------
   `fnmatch.fnmatch`, the glob matcher used by the file classifier
   --------------------------------------------------------------- -/

/-- Helper for the `*` wildcard of the glob matcher: `globTail m cs` is
true when `m` accepts some suffix of `cs`, which is exactly how `*`
consumes an arbitrary run of characters before the rest of the pattern
matches.  Written this way both recursions below are structural, so the
matcher evaluates by kernel reduction. -/
def globTail (m : List Char → Bool) : List Char → Bool
  | [] => m []
  | c :: cs => m (c :: cs) || globTail m cs

/-- One non-star pattern character: `?` matches any single character,
anything else matches itself verbatim (case-sensitively). -/
def globOne (p : Char) (m : List Char → Bool) : List Char → Bool
  | [] => false
  | c :: cs => (p == '?' || p == c) && m cs

/-- Core of Python `fnmatch.fnmatch` under POSIX (case-sensitive)
semantics, on explicit character lists: `*` matches any sequence of
characters, `?` any single character, and every other pattern character
matches itself verbatim.  The source only ever builds patterns of the
shape `*.<ext>`, so bracket character classes never occur and are not
modelled. -/
def globMatch : List Char → List Char → Bool
  | [] => List.isEmpty
  | p :: ps =>
    if p = '*' then globTail (globMatch ps)
    else globOne p (globMatch ps)

/-- Python `fnmatch.fnmatch(file_name, pat)` (POSIX: no case folding). -/
def fnmatch (file_name pat : String) : Bool :=
  globMatch pat.data file_name.data

/-- Python `os.path.basename` under POSIX semantics: the text after the
last `/` of the path, and the whole path when it has no `/`. -/
def basename (p : String) : String :=
  String.mk ((p.data.reverse.takeWhile (fun c => c != '/')).reverse)

/- ---------------------------------------------------------------
   ScalarType
   --------------------------------------------------------------- -/

/-- The `ScalarType` enumeration of the source, in declaration order. -/
inductive ScalarType
  | NIL
  | INT
  | INT32
  | INT64
  | FLOAT32
  | FLOAT64
  | STRING
  | BOOL
  | DATETIME
deriving DecidableEq

/-- Canonical string of each `ScalarType` member, as declared in the
source. -/
def ScalarType.value : ScalarType → String
  | .NIL => ""
  | .INT => "int"
  | .INT32 => "int32"
  | .INT64 => "int64"
  | .FLOAT32 => "float32"
  | .FLOAT64 => "float64"
  | .STRING => "string"
  | .BOOL => "bool"
  | .DATETIME => "datetime"

/-- Iteration order of the Python enum: declaration order. -/
def ScalarType.members : List ScalarType :=
  [.NIL, .INT, .INT32, .INT64, .FLOAT32, .FLOAT64, .STRING, .BOOL, .DATETIME]

/-- Python `cls(value)` lookup by canonical string: the first member whose
value equals the given string, if any (values are pairwise distinct, so
at most one matches). -/
def ScalarType.fromValue (s : String) : Option ScalarType :=
  ScalarType.members.find? (fun e => e.value == s)

/-- Python `ScalarType.has_value`: `cls(value)` succeeds iff the string is
some member's canonical value; the `ValueError` branch returns false. -/
def ScalarType.has_value (s : String) : Bool :=
  (ScalarType.fromValue s).isSome

/-- Python `ScalarType.get_values`: the members' canonical strings in
declaration order. -/
def ScalarType.get_values : List String :=
  ScalarType.members.map ScalarType.value

/- ---------------------------------------------------------------
   ComputationMode
   --------------------------------------------------------------- -/

/-- The `ComputationMode` enumeration of the source. -/
inductive ComputationMode
  | PRECOMPUTED
  | CLIENT_COMPUTED
deriving DecidableEq

/-- Canonical string of each `ComputationMode` member. -/
def ComputationMode.value : ComputationMode → String
  | .PRECOMPUTED => "PRECOMPUTED"
  | .CLIENT_COMPUTED => "CLIENT_COMPUTED"

/-- Python `ComputationMode.__eq__`: compares the canonical string value
against the given string. -/
def ComputationMode.eq (m : ComputationMode) (other : String) : Bool :=
  m.value == other

/-- Modelled from the spec: the integer codes that the external protocol
enumeration (`featureform.proto.metadata_pb2.ComputationMode`, not part of
the shown source) assigns to `PRECOMPUTED` and `CLIENT_COMPUTED`.  The
spec fixes only that these are the codes of the external contract; they
are modelled as the standard consecutive codes 0 and 1. -/
def pbPRECOMPUTED : Int := 0

/-- Modelled from the spec: the external protocol code of
`CLIENT_COMPUTED` (see `pbPRECOMPUTED`). -/
def pbCLIENT_COMPUTED : Int := 1

/-- Python `ComputationMode.proto`.  The comparisons `self ==
ComputationMode.PRECOMPUTED` go through the custom `__eq__` (string
comparison of canonical values, via reflected equality).  The `if/elif`
of the source has no final `else`, so the translation returns an
`Option`, with `none` for the fall-through that Python renders as an
implicit `None`; that branch is unreachable because the enumeration is
closed. -/
def ComputationMode.proto (m : ComputationMode) : Option Int :=
  if m.value == ComputationMode.value .PRECOMPUTED then some pbPRECOMPUTED
  else if m.value == ComputationMode.value .CLIENT_COMPUTED then some pbCLIENT_COMPUTED
  else none

/- ---------------------------------------------------------------
   FileFormat
   --------------------------------------------------------------- -/

/-- The `FileFormat` enumeration of the source, in declaration order. -/
inductive FileFormat
  | CSV
  | PARQUET
deriving DecidableEq

/-- Canonical string of each `FileFormat` member. -/
def FileFormat.value : FileFormat → String
  | .CSV => "csv"
  | .PARQUET => "parquet"

/-- Iteration order of the Python enum: declaration order, CSV before
PARQUET. -/
def FileFormat.members : List FileFormat :=
  [.CSV, .PARQUET]

/-- Python `FileFormat.is_supported`: true iff the base name of the path
matches the glob `*.<ext>` of some registered format. -/
def FileFormat.is_supported (file_path : String) : Bool :=
  let file_name := basename file_path
  FileFormat.members.any (fun f => fnmatch file_name ("*." ++ f.value))

/-- Python `FileFormat.get_format`: the canonical string of the first
format (in declaration order) whose glob matches the base name; raises
`ValueError` carrying the base name otherwise, modelled as `Except.error`
with the message of the source. -/
def FileFormat.get_format (file_path : String) : Except String String :=
  let file_name := basename file_path
  match FileFormat.members.find? (fun f => fnmatch file_name ("*." ++ f.value)) with
  | some f => Except.ok f.value
  | none => Except.error ("File format not supported: " ++ file_name)

/-- Python `FileFormat.supported_formats`: the canonical strings joined
by a comma and a space, in declaration order. -/
def FileFormat.supported_formats : String :=
  String.intercalate ", " (FileFormat.members.map FileFormat.value)

/- ---------------------------------------------------------------
   Glob-matching lemmas
   --------------------------------------------------------------- -/

/-- Patterns without wildcard characters: every character stands for
itself. -/
abbrev literalPat (ps : List Char) : Prop := ∀ c ∈ ps, c ≠ '*' ∧ c ≠ '?'

/-- A wildcard-free pattern matches exactly itself. -/
theorem globMatch_literal (ps : List Char) (h : literalPat ps) :
    ∀ cs, globMatch ps cs = true ↔ cs = ps := by
  induction ps with
  | nil => intro cs; cases cs <;> simp [globMatch]
  | cons p ps ih =>
    intro cs
    have hp := h p (List.mem_cons_self p ps)
    have hps : literalPat ps := fun c hc => h c (List.mem_cons_of_mem p hc)
    cases cs with
    | nil => simp [globMatch, hp.1, globOne]
    | cons c cs =>
      have hq : (p == '?') = false := by simp [hp.2]
      have h1 : globMatch (p :: ps) (c :: cs) = ((p == '?' || p == c) && globMatch ps cs) := by
        simp only [globMatch, if_neg hp.1, globOne]
      rw [h1, hq]
      simp only [Bool.false_or, Bool.and_eq_true, beq_iff_eq, ih hps cs, List.cons.injEq]
      constructor
      · rintro ⟨h2, h3⟩; exact ⟨h2.symm, h3⟩
      · rintro ⟨h2, h3⟩; exact ⟨h2.symm, h3⟩

/-- `globTail m` accepts a string exactly when `m` accepts one of its
suffixes. -/
theorem globTail_eq_true (m : List Char → Bool) (cs : List Char) :
    globTail m cs = true ↔ ∃ s, s <:+ cs ∧ m s = true := by
  induction cs with
  | nil => simp [globTail, List.suffix_nil]
  | cons c cs ih =>
    simp [globTail, ih, List.suffix_cons_iff, or_and_right, exists_or]

/-- A pattern `*<lit>` with `lit` wildcard-free matches exactly the
strings having `lit` as a suffix. -/
theorem globMatch_star (ps : List Char) (h : literalPat ps) (cs : List Char) :
    globMatch ('*' :: ps) cs = true ↔ ps <:+ cs := by
  have hlit := globMatch_literal ps h
  show globTail (globMatch ps) cs = true ↔ ps <:+ cs
  rw [globTail_eq_true]
  constructor
  · rintro ⟨s, hs, hm⟩
    rwa [(hlit s).mp hm] at hs
  · intro hs
    exact ⟨ps, hs, (hlit ps).mpr rfl⟩

/-- The glob `*.csv` matches exactly the names ending in `.csv`. -/
theorem fnmatch_csv_iff (name : String) :
    fnmatch name "*.csv" = true ↔ ".csv".data <:+ name.data :=
  globMatch_star ".csv".data (by decide) name.data

/-- The glob `*.parquet` matches exactly the names ending in
`.parquet`. -/
theorem fnmatch_parquet_iff (name : String) :
    fnmatch name "*.parquet" = true ↔ ".parquet".data <:+ name.data :=
  globMatch_star ".parquet".data (by decide) name.data

/- ---------------------------------------------------------------
   FileFormat classifier lemmas
   --------------------------------------------------------------- -/

/-- The pattern built for the CSV member is the literal glob `*.csv`. -/
theorem pat_csv_eq : "*." ++ FileFormat.value FileFormat.CSV = "*.csv" := rfl

/-- The pattern built for the PARQUET member is the literal glob
`*.parquet`. -/
theorem pat_parquet_eq : "*." ++ FileFormat.value FileFormat.PARQUET = "*.parquet" := rfl

/-- `is_supported` is the disjunction of the two registered glob tests on
the base name. -/
theorem is_supported_eq (p : String) :
    FileFormat.is_supported p =
      (fnmatch (basename p) "*.csv" || fnmatch (basename p) "*.parquet") := by
  show (FileFormat.members.any fun f => fnmatch (basename p) ("*." ++ FileFormat.value f)) = _
  simp [FileFormat.members, pat_csv_eq, pat_parquet_eq]

/-- The first matching member of the declaration-order scan of
`FileFormat.members`. -/
theorem find?_members_eq (bn : String) :
    (FileFormat.members.find? fun f => fnmatch bn ("*." ++ FileFormat.value f)) =
      (if fnmatch bn "*.csv" then some FileFormat.CSV
       else if fnmatch bn "*.parquet" then some FileFormat.PARQUET
       else none) := by
  cases h1 : fnmatch bn "*.csv" <;> cases h2 : fnmatch bn "*.parquet" <;>
    simp [FileFormat.members, List.find?, pat_csv_eq, pat_parquet_eq, h1, h2]

/-- Closed form of `get_format`: first match in declaration order, error
carrying the base name otherwise. -/
theorem get_format_eq (p : String) :
    FileFormat.get_format p =
      (if fnmatch (basename p) "*.csv" then Except.ok "csv"
       else if fnmatch (basename p) "*.parquet" then Except.ok "parquet"
       else Except.error ("File format not supported: " ++ basename p)) := by
  show (match FileFormat.members.find? (fun f => fnmatch (basename p) ("*." ++ FileFormat.value f)) with
        | some f => Except.ok (FileFormat.value f)
        | none => Except.error ("File format not supported: " ++ basename p)) = _
  rw [find?_members_eq]
  cases h1 : fnmatch (basename p) "*.csv" <;>
    cases h2 : fnmatch (basename p) "*.parquet" <;>
      simp [FileFormat.value]

/- ---------------------------------------------------------------
   Claim theorems
   --------------------------------------------------------------- -/

/-- C1: for every file path, `FileFormat.get_format` returns the
canonical string of the first format in declaration order (CSV, then
PARQUET) whose glob `*.<ext>` matches the base name of the path, and
fails with the unsupported-format error carrying the base file name when
no registered format matches. -/
theorem get_format_first_match (p : String) :
    FileFormat.get_format p =
      (if fnmatch (basename p) "*.csv" then Except.ok "csv"
       else if fnmatch (basename p) "*.parquet" then Except.ok "parquet"
       else Except.error ("File format not supported: " ++ basename p)) :=
  get_format_eq p

/-- C2: `ComputationMode.proto` maps PRECOMPUTED and CLIENT_COMPUTED to
the corresponding codes of the external protocol enumeration (modelled
from the spec), and the enumeration is closed, so the failure clause for
values outside the closed set is unreachable: every value is one of the
two mapped members. -/
theorem proto_codes :
    ComputationMode.proto ComputationMode.PRECOMPUTED = some pbPRECOMPUTED ∧
      ComputationMode.proto ComputationMode.CLIENT_COMPUTED = some pbCLIENT_COMPUTED ∧
      ∀ m : ComputationMode,
        m = ComputationMode.PRECOMPUTED ∨ m = ComputationMode.CLIENT_COMPUTED := by
  refine ⟨rfl, rfl, fun m => ?_⟩
  cases m
  · exact Or.inl rfl
  · exact Or.inr rfl

/-- C3: `ScalarType.has_value` returns true exactly on the nine canonical
scalar-type strings, the empty string (NIL) included; every other string,
case variants of a valid value included, yields false. -/
theorem has_value_canonical (s : String) :
    ScalarType.has_value s = true ↔
      s ∈ (["", "int", "int32", "int64", "float32", "float64", "string", "bool",
            "datetime"] : List String) := by
  simp [ScalarType.has_value, ScalarType.fromValue, ScalarType.members, List.find?_isSome,
    ScalarType.value]
  tauto

/-- C4: file-format matching is a case-sensitive glob anchored on the
literal trailing `.<ext>` of the base name: `data.csv` matches,
`data.CSV` and `archive.tar.gz` do not, and the multi-dot name
`data.backup.csv` matches. -/
theorem format_matching_case_examples :
    FileFormat.is_supported "data.csv" = true ∧
      FileFormat.is_supported "data.CSV" = false ∧
      FileFormat.is_supported "archive.tar.gz" = false ∧
      FileFormat.is_supported "data.backup.csv" = true :=
  ⟨rfl, rfl, rfl, rfl⟩

/-- C5: `FileFormat.is_supported` is a total boolean predicate (the
embedding returns a value on every string, so no exception is possible):
it is true exactly when the base name ends with a registered extension,
and false on every other input, paths with no extension included. -/
theorem is_supported_total_ends_with (p : String) :
    FileFormat.is_supported p = true ↔
      ".csv".data <:+ (basename p).data ∨ ".parquet".data <:+ (basename p).data := by
  rw [is_supported_eq]
  simp [Bool.or_eq_true, fnmatch_csv_iff, fnmatch_parquet_iff]

/-- C6: `ScalarType.get_values` returns exactly the nine canonical
strings in declaration order, beginning with the empty string for NIL. -/
theorem get_values_canonical :
    ScalarType.get_values =
      ["", "int", "int32", "int64", "float32", "float64", "string", "bool", "datetime"] := rfl

/-- C7: `ComputationMode.eq` compares a mode with an arbitrary string and
is true exactly when the string equals the canonical value of the mode;
in particular PRECOMPUTED compares equal to the raw string
`"PRECOMPUTED"`. -/
theorem computation_mode_equals_spec :
    (∀ (m : ComputationMode) (s : String),
        ComputationMode.eq m s = true ↔ s = ComputationMode.value m) ∧
      ComputationMode.eq ComputationMode.PRECOMPUTED "PRECOMPUTED" = true := by
  constructor
  · intro m s
    simp only [ComputationMode.eq, beq_iff_eq]
    exact eq_comm
  · rfl

/-- C8: `FileFormat.supported_formats` joins the canonical format strings
with a comma and a space in declaration order, yielding exactly
`"csv, parquet"`. -/
theorem supported_formats_rendering :
    FileFormat.supported_formats = "csv, parquet" := rfl

/-- C9: the predicate and the accessor agree on every input:
`get_format` returns a format exactly when `is_supported` is true, and
errors exactly when it is false. -/
theorem get_format_ok_iff_supported (p : String) :
    (∃ s, FileFormat.get_format p = Except.ok s) ↔ FileFormat.is_supported p = true := by
  simp only [get_format_eq, is_supported_eq]
  cases h1 : fnmatch (basename p) "*.csv" <;>
    cases h2 : fnmatch (basename p) "*.parquet" <;>
      simp [h1, h2]

/-- C10: a base name that is just a dot followed by a registered
extension (empty stem, hidden-file style) is supported: the `*` of the
glob matches the empty string, so `.csv` is classified as CSV. -/
theorem empty_stem_supported :
    FileFormat.is_supported ".csv" = true ∧
      FileFormat.get_format ".csv" = Except.ok "csv" :=
  ⟨rfl, rfl⟩
